import Mathlib

/-!
Verification of the famemeter collection/enrichment core against its
natural-language specification.  The Python source is shallowly embedded:
pure functions become Lean functions over ℕ/ℚ/String, stateful classes
become explicit state records with step functions, wall-clock readings are
passed in as explicit parameters, and external library calls
(`json.loads`, TextBlob polarity, AWS Comprehend) are abstracted as
function parameters.
-/

namespace FameMeter

/-! ## CircuitBreaker (src/phase-2-scrapers/stage-2.2-instagram/lambda_function.py)

Timestamps (`datetime.utcnow()`) are modelled as rational numbers passed
explicitly to the operations that read the clock. -/

structure CircuitBreaker where
  failure_threshold : ℕ
  timeout : ℚ
  failure_count : ℕ
  last_failure_time : Option ℚ
  is_open : Bool
deriving DecidableEq

namespace CircuitBreaker

/-- Constructor `CircuitBreaker.__init__`: fresh breaker, Closed with zero failures. -/
def init (failure_threshold : ℕ) (timeout : ℚ) : CircuitBreaker :=
  { failure_threshold := failure_threshold
    timeout := timeout
    failure_count := 0
    last_failure_time := none
    is_open := false }

/-- Method `record_success`: reset `failure_count` and close the breaker. -/
def record_success (cb : CircuitBreaker) : CircuitBreaker :=
  { cb with failure_count := 0, is_open := false }

/-- Method `record_failure` at wall-clock time `now`: increment the count, stamp
the failure time, and open once the count reaches the threshold. -/
def record_failure (cb : CircuitBreaker) (now : ℚ) : CircuitBreaker :=
  let cb := { cb with
    failure_count := cb.failure_count + 1
    last_failure_time := some now }
  if cb.failure_threshold ≤ cb.failure_count then { cb with is_open := true } else cb

/-- Method `can_execute` at wall-clock time `now`: returns the decision together
with the (possibly reset) breaker state. -/
def can_execute (cb : CircuitBreaker) (now : ℚ) : Bool × CircuitBreaker :=
  if cb.is_open = false then (true, cb)
  else
    match cb.last_failure_time with
    | some t =>
        if cb.timeout < now - t then
          (true, { cb with is_open := false, failure_count := 0 })
        else (false, cb)
    | none => (false, cb)

/-- Fold a sequence of failures (with their timestamps) into the breaker. -/
def record_failures (cb : CircuitBreaker) (times : List ℚ) : CircuitBreaker :=
  times.foldl record_failure cb

end CircuitBreaker

/-! ## Retry executor (src/phase-2-scrapers/stage-2.4-youtube/lambda_function.py)

`retry_with_backoff(func, max_retries, base_delay)` loops over
`range(max_retries)`.  An attempt either returns a result dict or raises;
we model the dict by `YtResult` (with `success` the truthiness of
`result.get('success')`, `channel_id` the truthiness of
`result.get('channel_id')`, and `error` the optional `'error'` entry) and
a raised exception by `Attempt.exc`.  The executor's outcome is the pair
of the value of the Python local `result` at the final `return result`
(`none` models the `UnboundLocalError` raised there when no attempt ever
assigned `result`) and the list of `time.sleep` durations in order. -/

/-- Characters of `pat` start `l` (Python `str.startswith` on char lists). -/
def charsStart : List Char → List Char → Bool
  | _, [] => true
  | [], _ :: _ => false
  | c :: cs, p :: ps => c = p && charsStart cs ps

/-- Substring containment, Python's `pat in s` on char lists. -/
def charsHasSub : List Char → List Char → Bool
  | [], pat => pat.isEmpty
  | c :: rest, pat => charsStart (c :: rest) pat || charsHasSub rest pat

/-- Python `pat in s` for strings. -/
def strHasSub (s pat : String) : Bool :=
  charsHasSub s.toList pat.toList

/-- Python `s.lower()`, char by char (the strings involved are ASCII). -/
def strToLower (s : String) : String :=
  String.mk (s.toList.map Char.toLower)

/-- The result dict returned by a YouTube fetch attempt. -/
structure YtResult where
  success : Bool
  channel_id : Bool
  error : Option String
deriving DecidableEq

/-- One attempt of `func()`: a returned result dict or a raised exception. -/
inductive Attempt where
  | ret (r : YtResult)
  | exc (msg : String)
deriving DecidableEq

/-- Truthiness test `result.get('success') or result.get('channel_id')`. -/
def YtResult.truthy (r : YtResult) : Bool :=
  r.success || r.channel_id

/-- The no-retry classification
`'Invalid' in result.get('error', '') or 'API key' in result.get('error', '')`. -/
def YtResult.isInvalidKeyError (r : YtResult) : Bool :=
  strHasSub (r.error.getD "") "Invalid" || strHasSub (r.error.getD "") "API key"

/-- The loop body of `retry_with_backoff`, iterating over the remaining
attempt indices (`for attempt in range(max_retries)`), threading the
Python local `result` (`none` = not yet assigned) and collecting the
backoff sleeps `base_delay * 2 ** attempt`. -/
def retryLoop (func : ℕ → Attempt) (max_retries : ℕ) (base_delay : ℚ) :
    List ℕ → Option YtResult → Option YtResult × List ℚ
  | [], result => (result, [])
  | attempt :: rest, result =>
    match func attempt with
    | .exc _ =>
        if attempt < max_retries - 1 then
          let out := retryLoop func max_retries base_delay rest result
          (out.1, base_delay * 2 ^ attempt :: out.2)
        else retryLoop func max_retries base_delay rest result
    | .ret r =>
        if r.truthy then (some r, [])
        else if r.isInvalidKeyError then (some r, [])
        else if attempt < max_retries - 1 then
          let out := retryLoop func max_retries base_delay rest (some r)
          (out.1, base_delay * 2 ^ attempt :: out.2)
        else retryLoop func max_retries base_delay rest (some r)

/-- Function `retry_with_backoff(func, max_retries, base_delay)`. -/
def retry_with_backoff (func : ℕ → Attempt) (max_retries : ℕ) (base_delay : ℚ) :
    Option YtResult × List ℚ :=
  retryLoop func max_retries base_delay (List.range max_retries) none

/-! ## Key rotation (src/phase-2-scrapers/stage-2.1-google-search/key_rotation.py)

`APIKeyRotationManager` keeps per-key statistics in a dict, modelled by a
function `String → Option KeyStats` (the dict's lookup).  `datetime.now()`
readings are explicit ℚ parameters.  The `random` and `adaptive`
selection strategies call `random.choice` / compare wall-clock staleness
and are left out of the embedding (no claim exercises them); the
`round_robin`, `least_used` and unknown-strategy-fallback branches of
`get_next_key` are modelled. -/

/-- The per-key statistics dict
`{"requests": 0, "errors": 0, "last_error": None}` (the key
`last_error_time` is added on the first failure; `none` models absence). -/
structure KeyStats where
  requests : ℕ
  errors : ℕ
  last_error : Option String
  last_error_time : Option ℚ
deriving DecidableEq

/-- State of `APIKeyRotationManager`. -/
structure APIKeyRotationManager where
  strategy : String
  current_index : ℕ
  keys : List String
  key_stats : String → Option KeyStats
  rate_limit_threshold : ℚ

namespace APIKeyRotationManager

/-- Constructor `__init__`: every loaded key starts with zeroed statistics. -/
def init (strategy : String) (keys : List String) (rate_limit_threshold : ℚ) :
    APIKeyRotationManager :=
  { strategy := strategy
    current_index := 0
    keys := keys
    key_stats := fun k =>
      if k ∈ keys then some ⟨0, 0, none, none⟩ else none
    rate_limit_threshold := rate_limit_threshold }

/-- Method `_get_round_robin_key`: `keys[current_index % len(keys)]`, then bump
the index.  (Callers guarantee `keys` is non-empty; the `getD` default is
never reached then.) -/
def _get_round_robin_key (s : APIKeyRotationManager) :
    String × APIKeyRotationManager :=
  (s.keys.getD (s.current_index % s.keys.length) "",
   { s with current_index := s.current_index + 1 })

/-- Method `_get_least_used_key`: Python `min(keys, key=...)` keeps the earliest
key attaining the minimum request count. -/
def _get_least_used_key (s : APIKeyRotationManager) : String :=
  let reqs : String → ℕ := fun k => ((s.key_stats k).map KeyStats.requests).getD 0
  (s.keys.foldl (fun best k =>
    match best with
    | none => some k
    | some b => if reqs k < reqs b then some k else best) none).getD ""

/-- Method `get_next_key` for the modelled strategies: `None` when no keys are
loaded, round-robin dispatch (also the unknown-strategy fallback), and
least-used. -/
def get_next_key (s : APIKeyRotationManager) :
    Option String × APIKeyRotationManager :=
  if s.keys = [] then (none, s)
  else if s.strategy = "round_robin" then
    let out := s._get_round_robin_key
    (some out.1, out.2)
  else if s.strategy = "least_used" then (some s._get_least_used_key, s)
  else
    let out := s._get_round_robin_key
    (some out.1, out.2)

/-- The selection returned by the `(i+1)`-st call of `get_next_key` in a
run that starts from `s` and does nothing else in between. -/
def selectionAt (s : APIKeyRotationManager) : ℕ → Option String
  | 0 => (get_next_key s).1
  | i + 1 => selectionAt (get_next_key s).2 i

/-- Method `record_request(key, success, error_type)` at wall-clock time `now`. -/
def record_request (s : APIKeyRotationManager) (key : String) (success : Bool)
    (error_type : Option String) (now : ℚ) : APIKeyRotationManager :=
  match s.key_stats key with
  | none => s
  | some st =>
    let st := { st with requests := st.requests + 1 }
    let st :=
      if success then st
      else { st with
        errors := st.errors + 1
        last_error := error_type
        last_error_time := some now }
    { s with key_stats := fun k => if k = key then some st else s.key_stats k }

/-- Method `should_skip_key(key)`: false for untracked keys and for keys with no
recorded request; otherwise compare the percentage error rate against the
threshold. -/
def should_skip_key (s : APIKeyRotationManager) (key : String) : Bool :=
  match s.key_stats key with
  | none => false
  | some st =>
    if st.requests = 0 then false
    else decide (s.rate_limit_threshold ≤ (st.errors : ℚ) / (st.requests : ℚ) * 100)

/-- The `error_rate` computed inside `get_statistics` for one key:
guarded division, 0 when no request was recorded. -/
def statistics_error_rate (st : KeyStats) : ℚ :=
  if 0 < st.requests then (st.errors : ℚ) / (st.requests : ℚ) * 100 else 0

/-- One `record_request` event: key, success flag, error type, clock. -/
def applyEvent (s : APIKeyRotationManager)
    (e : String × Bool × Option String × ℚ) : APIKeyRotationManager :=
  s.record_request e.1 e.2.1 e.2.2.1 e.2.2.2

/-- Fold a sequence of `record_request` events into the manager. -/
def applyEvents (s : APIKeyRotationManager)
    (events : List (String × Bool × Option String × ℚ)) : APIKeyRotationManager :=
  events.foldl applyEvent s

end APIKeyRotationManager

/-! ## Enrichment post-processor (src/phase-3-post-processing/post-processor/lambda_function.py)

`json.loads` is abstracted as a `parse : String → Option Json` parameter
(`none` covers both a raised `JSONDecodeError` and, for `calculate_weight`
/ text extraction, any non-object result, since `data.values()` /
`data.items()` on a non-dict raises inside the same `try`).  TextBlob's
polarity and AWS Comprehend's sentiment are abstracted as function
parameters.  DynamoDB is modelled as a map from the
`(celebrity_id, source_type#timestamp)` key to an item whose
`weight`/`sentiment`/`updated_at` attributes are named fields and whose
remaining attributes (`raw_text`, `source`, ...) sit in `attrs`. -/

/-- JSON values as produced by `json.loads`. -/
inductive Json where
  | null
  | bool (b : Bool)
  | num (q : ℚ)
  | str (s : String)
  | arr (elems : List Json)
  | obj (fields : List (String × Json))

/-- The filter `v is not None and v != ''` over a dict value. -/
def Json.nonEmptyVal : Json → Bool
  | .null => false
  | .str "" => false
  | _ => true

/-- Count `len([v for v in data.values() if v is not None and v != ''])`. -/
def fieldCount (fields : List (String × Json)) : ℕ :=
  (fields.filter (fun p => p.2.nonEmptyVal)).length

/-- The `source_reliability` table, in its Python insertion order. -/
def source_reliability : List (String × ℚ) :=
  [("api.themoviedb.org", 95 / 100),
   ("en.wikipedia.org", 90 / 100),
   ("newsapi.org", 85 / 100),
   ("twitter.com", 80 / 100),
   ("instagram.com", 75 / 100),
   ("youtube.com", 85 / 100)]

/-- The reliability lookup loop: first table entry whose domain occurs in
`source.lower()`, default 0.5. -/
def reliabilityScore (source : String) : ℚ :=
  ((source_reliability.find? (fun p => strHasSub (strToLower source) p.1)).map
    Prod.snd).getD (1 / 2)

/-- Round-half-to-even to an integer (Python 3 `round` on the exact value). -/
def roundHalfEven (q : ℚ) : ℤ :=
  if q - ⌊q⌋ < 1 / 2 then ⌊q⌋
  else if (1 : ℚ) / 2 < q - ⌊q⌋ then ⌊q⌋ + 1
  else if ⌊q⌋ % 2 = 0 then ⌊q⌋ else ⌊q⌋ + 1

/-- Python `round(x, 2)` on the exact rational value. -/
def round2 (q : ℚ) : ℚ :=
  (roundHalfEven (q * 100) : ℚ) / 100

/-- Function `calculate_weight(raw_text, source)`: completeness from the parsed
payload (0.3 on any parse/attribute error), reliability from the domain
table, combined half-and-half and rounded to 2 decimals. -/
def calculate_weight (parse : String → Option Json) (raw_text source : String) : ℚ :=
  let completeness_score : ℚ :=
    match parse raw_text with
    | some (.obj fields) => min ((fieldCount fields : ℚ) / 10) 1
    | _ => 3 / 10
  let reliability_score := reliabilityScore source
  round2 (completeness_score * (1 / 2) + reliability_score * (1 / 2))

/-- One dict entry contributing to the extracted text:
`str(v) for k, v in data.items() if isinstance(v, str) and k not in
['id', 'raw_text', 'source']`. -/
def textField : String × Json → Option String
  | (k, .str s) =>
      if k = "id" ∨ k = "raw_text" ∨ k = "source" then none else some s
  | _ => none

/-- The text-content extraction shared by both sentiment paths. -/
def extractTextContent (parse : String → Option Json) (raw_text : String) : String :=
  if raw_text.startsWith "\x7b" then
    match parse raw_text with
    | some (.obj fields) => " ".intercalate (fields.filterMap textField)
    | _ => raw_text
  else raw_text

/-- Function `calculate_sentiment_textblob(raw_text)` with TextBlob's polarity
abstracted as `polarity`. -/
def calculate_sentiment_textblob (polarity : String → ℚ)
    (parse : String → Option Json) (raw_text : String) : String :=
  let text_content := (extractTextContent parse raw_text).take 500
  let p := polarity text_content
  if 1 / 10 < p then "positive"
  else if p < -(1 / 10) then "negative"
  else "neutral"

/-- Function `calculate_sentiment_aws(raw_text)` with Comprehend's response
abstracted as `comprehend` (the `Sentiment` field of the response). -/
def calculate_sentiment_aws (comprehend : String → String)
    (parse : String → Option Json) (raw_text : String) : String :=
  let text_content := (extractTextContent parse raw_text).take 500
  let sentiment := strToLower (comprehend text_content)
  if sentiment = "positive" then "positive"
  else if sentiment = "negative" then "negative"
  else if sentiment = "neutral" then "neutral"
  else if sentiment = "mixed" then "neutral"
  else "neutral"

/-- Function `calculate_sentiment(raw_text)`: dispatch on `USE_AWS_COMPREHEND`. -/
def calculate_sentiment (use_aws_comprehend : Bool) (comprehend : String → String)
    (polarity : String → ℚ) (parse : String → Option Json) (raw_text : String) :
    String :=
  if use_aws_comprehend then calculate_sentiment_aws comprehend parse raw_text
  else calculate_sentiment_textblob polarity parse raw_text

/-- A stored DynamoDB item: the three attributes the post-processor sets
are named fields; every other attribute lives in `attrs`. -/
structure Item where
  weight : Option ℚ
  sentiment : Option String
  updated_at : Option String
  attrs : List (String × String)
deriving DecidableEq

/-- The table: `(celebrity_id, source_type#timestamp)` key to item. -/
def Store : Type := String × String → Option Item

/-- An item with no attributes (what `update_item`'s upsert builds on when
the key is absent). -/
def emptyItem : Item := ⟨none, none, none, []⟩

/-- Call `table.update_item` with
`SET #weight = :weight, #sentiment = :sentiment, updated_at = :updated_at`:
touches only the addressed key, and only those three attributes. -/
def update_item (store : Store) (key : String × String) (w : ℚ)
    (snt : String) (updated_at : String) : Store :=
  fun k =>
    if k = key then
      some { (store key).getD emptyItem with
        weight := some w, sentiment := some snt, updated_at := some updated_at }
    else store k

/-- The new-image of a stream record; each field is the `.get(name, {}).get('S')`
value, `none` when absent. -/
structure NewImage where
  celebrity_id : Option String
  source_type_timestamp : Option String
  raw_text : Option String
  source : Option String
deriving DecidableEq

/-- The `record['dynamodb']` part: the new-image, when present. -/
structure StreamRecordData where
  NewImage : Option NewImage
deriving DecidableEq

/-- A DynamoDB Stream record.  `eventName := none` models a record where
`record['eventName']` raises `KeyError` (caught by the outer handler,
which returns `False`); likewise `dynamodb := none` for `record['dynamodb']`. -/
structure StreamRecord where
  eventName : Option String
  dynamodb : Option StreamRecordData
deriving DecidableEq

/-- Python truthiness of one extracted field inside
`all([celebrity_id, source_type_timestamp, raw_text, source])`:
`None` and `''` are falsy. -/
def truthyField : Option String → Bool
  | none => false
  | some s => !(s = "")

/-- Function `process_stream_record(record)`: returns the boolean result and the
store after the (possible) update.  `now` is the
`datetime.utcnow().isoformat() + 'Z'` timestamp string. -/
def process_stream_record (parse : String → Option Json) (polarity : String → ℚ)
    (use_aws_comprehend : Bool) (comprehend : String → String)
    (record : StreamRecord) (now : String) (store : Store) : Bool × Store :=
  match record.eventName with
  | none => (false, store)
  | some event_name =>
    if ¬(event_name = "INSERT" ∨ event_name = "MODIFY") then (true, store)
    else
      match record.dynamodb with
      | none => (false, store)
      | some dynamodb_record =>
        match dynamodb_record.NewImage with
        | none => (true, store)
        | some new_image =>
          if truthyField new_image.celebrity_id &&
             truthyField new_image.source_type_timestamp &&
             truthyField new_image.raw_text &&
             truthyField new_image.source then
            let celebrity_id := new_image.celebrity_id.getD ""
            let source_type_timestamp := new_image.source_type_timestamp.getD ""
            let raw_text := new_image.raw_text.getD ""
            let source := new_image.source.getD ""
            let weight := calculate_weight parse raw_text source
            let sentiment :=
              calculate_sentiment use_aws_comprehend comprehend polarity parse raw_text
            (true,
             update_item store (celebrity_id, source_type_timestamp) weight sentiment now)
          else (true, store)

/-! ## Theorems -/

/-! ### C1 — circuit breaker -/

theorem record_failure_eq (cb : CircuitBreaker) (now : ℚ) :
    cb.record_failure now =
      { cb with
        failure_count := cb.failure_count + 1
        last_failure_time := some now
        is_open :=
          if cb.failure_threshold ≤ cb.failure_count + 1 then true else cb.is_open } := by
  by_cases h : cb.failure_threshold ≤ cb.failure_count + 1 <;>
    simp [CircuitBreaker.record_failure, h]

theorem record_failures_aux (times : List ℚ) :
    ∀ cb : CircuitBreaker,
      (cb.record_failures times).failure_count = cb.failure_count + times.length ∧
      (cb.record_failures times).failure_threshold = cb.failure_threshold ∧
      ((cb.record_failures times).is_open = true ↔
        cb.is_open = true ∨
          (1 ≤ times.length ∧
            cb.failure_threshold ≤ cb.failure_count + times.length)) := by
  induction times with
  | nil => intro cb; simp [CircuitBreaker.record_failures]
  | cons t ts ih =>
    intro cb
    have step : cb.record_failures (t :: ts) = (cb.record_failure t).record_failures ts :=
      rfl
    obtain ⟨h1, h2, h3⟩ := ih (cb.record_failure t)
    rw [record_failure_eq] at h1 h2 h3
    dsimp only at h1 h2 h3
    rw [step]
    rw [record_failure_eq]
    refine ⟨?_, ?_, ?_⟩
    · rw [h1]; simp only [List.length_cons]; omega
    · rw [h2]
    · rw [h3]
      simp only [List.length_cons]
      by_cases h : cb.failure_threshold ≤ cb.failure_count + 1
      · simp only [if_pos h]
        constructor
        · intro _
          right
          exact ⟨by omega, by omega⟩
        · intro _
          simp
      · simp only [if_neg h]
        constructor
        · rintro (hc | ⟨hc1, hc2⟩)
          · exact Or.inl hc
          · exact Or.inr ⟨by omega, by omega⟩
        · rintro (hc | ⟨hc1, hc2⟩)
          · exact Or.inl hc
          · right
            refine ⟨?_, by omega⟩
            by_contra hlen
            have : ts.length = 0 := by omega
            omega

/-- C1: starting Closed with `failure_count = 0`, each `record_failure`
increments the count and the breaker is Open exactly when the count has
reached the configured (positive) threshold; while Open with the elapsed
time since the last failure within the cooldown, `can_execute` returns
`false` and changes nothing; once the elapsed time exceeds the cooldown,
`can_execute` returns `true`, closes the breaker and resets the count to
0; and a single `record_success` resets the count to 0 and closes the
breaker. -/
theorem C1_circuit_breaker :
    (∀ (cb : CircuitBreaker) (now : ℚ),
      (cb.record_failure now).failure_count = cb.failure_count + 1) ∧
    (∀ (thr : ℕ) (cooldown : ℚ), 1 ≤ thr → ∀ times : List ℚ,
      ((CircuitBreaker.init thr cooldown).record_failures times).failure_count
          = times.length ∧
      (((CircuitBreaker.init thr cooldown).record_failures times).is_open = true ↔
        thr ≤ times.length)) ∧
    (∀ (cb : CircuitBreaker) (t now : ℚ), cb.is_open = true →
      cb.last_failure_time = some t →
      (now - t ≤ cb.timeout → cb.can_execute now = (false, cb)) ∧
      (cb.timeout < now - t →
        cb.can_execute now =
          (true, { cb with is_open := false, failure_count := 0 }))) ∧
    (∀ cb : CircuitBreaker,
      cb.record_success.failure_count = 0 ∧ cb.record_success.is_open = false) := by
  refine ⟨?_, ?_, ?_, ?_⟩
  · intro cb now
    rw [record_failure_eq]
  · intro thr cooldown hthr times
    obtain ⟨h1, _, h3⟩ := record_failures_aux times (CircuitBreaker.init thr cooldown)
    refine ⟨by simpa [CircuitBreaker.init] using h1, ?_⟩
    rw [h3]
    simp only [CircuitBreaker.init]
    constructor
    · rintro (h | h)
      · simp at h
      · omega
    · intro h
      right
      omega
  · intro cb t now hopen htime
    constructor
    · intro helapsed
      have hnot : ¬(cb.timeout < now - t) := not_lt.mpr helapsed
      simp [CircuitBreaker.can_execute, hopen, htime, hnot]
    · intro helapsed
      simp [CircuitBreaker.can_execute, hopen, htime, helapsed]
  · intro cb
    exact ⟨rfl, rfl⟩

/-- Witness for C1 at threshold 2, cooldown 300: two failures at times 0
and 1 open the breaker (one does not), `can_execute` at time 100 refuses
and at time 302 resets the breaker. -/
theorem C1_circuit_breaker_witness :
    ((CircuitBreaker.init 2 300).record_failures [0, 1]).is_open = true ∧
    ((CircuitBreaker.init 2 300).record_failures [0]).is_open = false ∧
    (((CircuitBreaker.init 2 300).record_failures [0, 1]).can_execute 100).1 = false ∧
    (((CircuitBreaker.init 2 300).record_failures [0, 1]).can_execute 302).1 = true ∧
    (((CircuitBreaker.init 2 300).record_failures [0, 1]).can_execute 302).2.failure_count
      = 0 := by
  have h := C1_circuit_breaker
  have hopen : ((CircuitBreaker.init 2 300).record_failures [0, 1]).is_open = true :=
    (h.2.1 2 300 (by decide) [0, 1]).2.mpr (by decide)
  have hclosed : ((CircuitBreaker.init 2 300).record_failures [0]).is_open = false := by
    have hcl := (h.2.1 2 300 (by decide) [0]).2
    revert hcl
    decide
  have htime :
      ((CircuitBreaker.init 2 300).record_failures [0, 1]).last_failure_time = some 1 := by
    decide
  obtain ⟨hrefuse, _⟩ :=
    h.2.2.1 ((CircuitBreaker.init 2 300).record_failures [0, 1]) 1 100 hopen htime
  obtain ⟨_, hreset302⟩ :=
    h.2.2.1 ((CircuitBreaker.init 2 300).record_failures [0, 1]) 1 302 hopen htime
  have hto : ((CircuitBreaker.init 2 300).record_failures [0, 1]).timeout = 300 := rfl
  refine ⟨hopen, hclosed, ?_, ?_, ?_⟩
  · rw [hrefuse (by rw [hto]; norm_num)]
  · rw [hreset302 (by rw [hto]; norm_num)]
  · rw [hreset302 (by rw [hto]; norm_num)]

/-! ### C2 / C3 — retry executor -/

/-- C2: evaluation of the embedded `retry_with_backoff` at the failing
input — a `func` that raises on every one of its 3 attempts with
`base_delay = 1`.  The loop sleeps twice (1s, 2s) and then reaches
`return result` with the local `result` never assigned, modelled by
`none`: the Python function raises `UnboundLocalError` there instead of
returning the structured result the claim promises. -/
theorem C2_retry_unbound_result_on_all_exceptions :
    retry_with_backoff (fun _ => Attempt.exc "network down") 3 1 = (none, [1, 2]) := by
  have h3 : List.range 3 = [0, 1, 2] := rfl
  rw [retry_with_backoff, h3]
  simp [retryLoop]

theorem retryLoop_all_fail (func : ℕ → Attempt) (max_retries : ℕ) (base_delay : ℚ)
    (rs : ℕ → YtResult)
    (hfail : ∀ i, i < max_retries → func i = .ret (rs i) ∧ (rs i).truthy = false ∧
      (rs i).isInvalidKeyError = false) :
    ∀ n a, 1 ≤ n → a + n = max_retries → ∀ result,
      retryLoop func max_retries base_delay (List.range' a n) result =
        (some (rs (max_retries - 1)),
         (List.range' a (n - 1)).map (fun i => base_delay * 2 ^ i)) := by
  intro n
  induction n with
  | zero => intro a h1 _ _; omega
  | succ m ih =>
    intro a _ hsum result
    rw [List.range'_succ]
    obtain ⟨hf, ht, hi⟩ := hfail a (by omega)
    by_cases hm : m = 0
    · subst hm
      have hlast : ¬(a < max_retries - 1) := by omega
      have ha : a = max_retries - 1 := by omega
      simp [retryLoop, hf, ht, hi, hlast, List.range']
      rw [ha]
    · have hlt : a < max_retries - 1 := by omega
      simp only [retryLoop, hf, ht, hi, Bool.false_eq_true, if_false, if_pos hlt]
      rw [ih (a + 1) (by omega) (by omega) (some (rs a))]
      have hm1 : m = (m - 1) + 1 := by omega
      rw [show List.range' a (m + 1 - 1) = a :: List.range' (a + 1) (m - 1) from by
        rw [Nat.add_sub_cancel]
        rw [hm1]
        exact List.range'_succ a (m - 1) 1]
      simp

/-- C3: a failing attempt result classified invalid (error containing
`Invalid` or `API key`) is returned immediately from the retry loop with
no further attempt and no sleep, regardless of remaining attempts; and
when every attempt returns a failing, non-invalid result, the executor
returns the last attempt's result having slept exactly
`max_retries - 1` times, the sleep after attempt `i` lasting
`base_delay * 2 ^ i` seconds. -/
theorem C3_retry_invalid_terminal_and_backoff_schedule :
    (∀ (func : ℕ → Attempt) (max_retries : ℕ) (base_delay : ℚ) (attempt : ℕ)
        (rest : List ℕ) (result : Option YtResult) (r : YtResult),
      func attempt = .ret r → r.truthy = false → r.isInvalidKeyError = true →
      retryLoop func max_retries base_delay (attempt :: rest) result = (some r, [])) ∧
    (∀ (func : ℕ → Attempt) (max_retries : ℕ) (base_delay : ℚ) (rs : ℕ → YtResult),
      1 ≤ max_retries →
      (∀ i, i < max_retries → func i = .ret (rs i) ∧ (rs i).truthy = false ∧
        (rs i).isInvalidKeyError = false) →
      retry_with_backoff func max_retries base_delay =
        (some (rs (max_retries - 1)),
         (List.range (max_retries - 1)).map (fun i => base_delay * 2 ^ i))) := by
  constructor
  · intro func max_retries base_delay attempt rest result r hf ht hi
    simp [retryLoop, hf, ht, hi]
  · intro func max_retries base_delay rs hmax hfail
    rw [retry_with_backoff, List.range_eq_range']
    rw [retryLoop_all_fail func max_retries base_delay rs hfail max_retries 0 hmax
      (by omega) none]
    rw [List.range_eq_range']

/-- Witness for C3: an `Invalid API key` failure on the first of 5
attempts is returned at once with no sleep, and three straight
`HTTP 500` failures with `base_delay = 1` sleep 1s then 2s and surface
the last failure. -/
theorem C3_retry_schedule_witness :
    retryLoop (fun _ => Attempt.ret ⟨false, false, some "Invalid API key"⟩) 5 1
        [0, 1, 2, 3, 4] none =
      (some ⟨false, false, some "Invalid API key"⟩, []) ∧
    retry_with_backoff (fun _ => Attempt.ret ⟨false, false, some "HTTP 500"⟩) 3 1 =
      (some ⟨false, false, some "HTTP 500"⟩, [1, 2]) := by
  constructor
  · exact C3_retry_invalid_terminal_and_backoff_schedule.1
      (fun _ => Attempt.ret ⟨false, false, some "Invalid API key"⟩) 5 1 0 [1, 2, 3, 4]
      none ⟨false, false, some "Invalid API key"⟩ rfl (by decide) (by decide)
  · rw [C3_retry_invalid_terminal_and_backoff_schedule.2
      (fun _ => Attempt.ret ⟨false, false, some "HTTP 500"⟩) 3 1
      (fun _ => ⟨false, false, some "HTTP 500"⟩) (by decide)
      (fun i _ => ⟨rfl, rfl, rfl⟩)]
    norm_num [List.range_succ]

/-! ### C8 / C9 / C10 — key rotation -/

theorem get_next_key_round_robin (s : APIKeyRotationManager)
    (hstrat : s.strategy = "round_robin") (hne : ¬s.keys = []) :
    s.get_next_key =
      (some (s.keys.getD (s.current_index % s.keys.length) ""),
       { s with current_index := s.current_index + 1 }) := by
  simp [APIKeyRotationManager.get_next_key, APIKeyRotationManager._get_round_robin_key,
    hstrat, hne]

theorem selectionAt_round_robin (i : ℕ) :
    ∀ s : APIKeyRotationManager, s.strategy = "round_robin" → ¬s.keys = [] →
      s.selectionAt i =
        some (s.keys.getD ((s.current_index + i) % s.keys.length) "") := by
  induction i with
  | zero =>
    intro s hstrat hne
    rw [APIKeyRotationManager.selectionAt, get_next_key_round_robin s hstrat hne]
    simp
  | succ j ih =>
    intro s hstrat hne
    rw [APIKeyRotationManager.selectionAt, get_next_key_round_robin s hstrat hne]
    rw [ih { s with current_index := s.current_index + 1 } hstrat hne]
    have : s.current_index + 1 + j = s.current_index + (j + 1) := by omega
    rw [this]

/-- C8: with the round-robin strategy over a non-empty key list and
selections driven only by `get_next_key`, the `i`-th and
`(i + N)`-th selections coincide, `N` being the number of keys. -/
theorem C8_round_robin_cyclic (s : APIKeyRotationManager)
    (hstrat : s.strategy = "round_robin") (hne : ¬s.keys = []) (i : ℕ) :
    s.selectionAt i = s.selectionAt (i + s.keys.length) := by
  rw [selectionAt_round_robin i s hstrat hne,
    selectionAt_round_robin (i + s.keys.length) s hstrat hne]
  rw [← Nat.add_assoc, Nat.add_mod_right]

/-- Witness for C8: three keys, the 2nd and 5th selections both return
`k2`. -/
theorem C8_round_robin_cyclic_witness :
    (APIKeyRotationManager.init "round_robin" ["k1", "k2", "k3"] 95).selectionAt 1 =
      (APIKeyRotationManager.init "round_robin" ["k1", "k2", "k3"] 95).selectionAt
        (1 + 3) ∧
    (APIKeyRotationManager.init "round_robin" ["k1", "k2", "k3"] 95).selectionAt 1 =
      some "k2" := by
  constructor
  · exact C8_round_robin_cyclic
      (APIKeyRotationManager.init "round_robin" ["k1", "k2", "k3"] 95) rfl
      (by decide) 1
  · rfl

/-- C9: `should_skip_key` returns `true` exactly when the key is tracked
with at least one recorded request and its percentage error rate is at
least the configured threshold; in particular it returns `false` for any
tracked key with zero recorded requests. -/
theorem C9_should_skip_key_iff (s : APIKeyRotationManager) (key : String) :
    (s.should_skip_key key = true ↔
      ∃ st, s.key_stats key = some st ∧ 0 < st.requests ∧
        s.rate_limit_threshold ≤ (st.errors : ℚ) / (st.requests : ℚ) * 100) ∧
    (∀ st, s.key_stats key = some st → st.requests = 0 →
      s.should_skip_key key = false) := by
  constructor
  · constructor
    · intro htrue
      unfold APIKeyRotationManager.should_skip_key at htrue
      cases h : s.key_stats key with
      | none => rw [h] at htrue; simp at htrue
      | some st =>
        rw [h] at htrue
        dsimp only at htrue
        by_cases hreq : st.requests = 0
        · rw [if_pos hreq] at htrue
          simp at htrue
        · rw [if_neg hreq] at htrue
          exact ⟨st, rfl, by omega, of_decide_eq_true htrue⟩
    · rintro ⟨st, hst, hpos, hrate⟩
      unfold APIKeyRotationManager.should_skip_key
      rw [hst]
      dsimp only
      rw [if_neg (by omega)]
      exact decide_eq_true hrate
  · intro st hst hreq
    unfold APIKeyRotationManager.should_skip_key
    rw [hst]
    dsimp only
    rw [if_pos hreq]

/-- Witness for C9: a fresh key (0 requests) is not skipped; after one
failed request at threshold 95 the error rate is 100% and the key is
skipped. -/
theorem C9_should_skip_key_witness :
    (APIKeyRotationManager.init "round_robin" ["k"] 95).should_skip_key "k" = false ∧
    ((APIKeyRotationManager.init "round_robin" ["k"] 95).record_request "k" false
      (some "TIMEOUT") 0).should_skip_key "k" = true := by
  constructor
  · exact (C9_should_skip_key_iff
      (APIKeyRotationManager.init "round_robin" ["k"] 95) "k").2
      ⟨0, 0, none, none⟩ rfl rfl
  · apply (C9_should_skip_key_iff
      ((APIKeyRotationManager.init "round_robin" ["k"] 95).record_request "k" false
        (some "TIMEOUT") 0) "k").1.mpr
    refine ⟨⟨1, 1, some "TIMEOUT", some 0⟩, rfl, by norm_num, ?_⟩
    have hthr : ((APIKeyRotationManager.init "round_robin" ["k"] 95).record_request "k"
        false (some "TIMEOUT") 0).rate_limit_threshold = 95 := rfl
    rw [hthr]
    norm_num

theorem record_request_errors_le (s : APIKeyRotationManager) (key : String)
    (success : Bool) (error_type : Option String) (now : ℚ)
    (h : ∀ k st, s.key_stats k = some st → st.errors ≤ st.requests) :
    ∀ k st, (s.record_request key success error_type now).key_stats k = some st →
      st.errors ≤ st.requests := by
  intro k st
  unfold APIKeyRotationManager.record_request
  cases h0 : s.key_stats key with
  | none => exact h k st
  | some st0 =>
    have hbase := h key st0 h0
    dsimp only
    by_cases hk : k = key
    · rw [if_pos hk]
      cases success <;>
        simp only [Bool.false_eq_true, reduceIte, Option.some.injEq] <;>
        rintro rfl <;> dsimp only <;> omega
    · rw [if_neg hk]
      exact h k st

theorem record_request_none (s : APIKeyRotationManager) (key : String)
    (success : Bool) (error_type : Option String) (now : ℚ) (k : String)
    (h : s.key_stats k = none) :
    (s.record_request key success error_type now).key_stats k = none := by
  unfold APIKeyRotationManager.record_request
  cases h0 : s.key_stats key with
  | none => exact h
  | some st0 =>
    dsimp only
    by_cases hk : k = key
    · rw [hk] at h
      rw [h] at h0
      cases h0
    · rw [if_neg hk]
      exact h

theorem applyEvents_errors_le (events : List (String × Bool × Option String × ℚ)) :
    ∀ s : APIKeyRotationManager,
      (∀ k st, s.key_stats k = some st → st.errors ≤ st.requests) →
      ∀ k st, (s.applyEvents events).key_stats k = some st →
        st.errors ≤ st.requests := by
  induction events with
  | nil => intro s h; exact h
  | cons e es ih =>
    intro s h
    exact ih (s.applyEvent e)
      (record_request_errors_le s e.1 e.2.1 e.2.2.1 e.2.2.2 h)

theorem applyEvents_none (events : List (String × Bool × Option String × ℚ)) :
    ∀ (s : APIKeyRotationManager) (k : String), s.key_stats k = none →
      (s.applyEvents events).key_stats k = none := by
  induction events with
  | nil => intro s k h; exact h
  | cons e es ih =>
    intro s k h
    exact ih (s.applyEvent e) k (record_request_none s e.1 e.2.1 e.2.2.1 e.2.2.2 k h)

/-- C10: after any sequence of `record_request` calls on a freshly
constructed manager, every tracked key satisfies `errors ≤ requests`, so
the percentage error rate used by `should_skip_key` and `get_statistics`
is division-guarded and at most 100; and for a key the instance does not
manage, `record_request` leaves the manager unchanged and
`should_skip_key` returns `false`. -/
theorem C10_rotation_stats_invariant (strategy : String) (keys : List String)
    (threshold : ℚ) (events : List (String × Bool × Option String × ℚ)) :
    (∀ k st,
      ((APIKeyRotationManager.init strategy keys threshold).applyEvents
          events).key_stats k = some st →
      st.errors ≤ st.requests ∧
      (0 < st.requests → (st.errors : ℚ) / (st.requests : ℚ) * 100 ≤ 100) ∧
      APIKeyRotationManager.statistics_error_rate st ≤ 100) ∧
    (∀ k, k ∉ keys →
      ∀ (success : Bool) (error_type : Option String) (now : ℚ),
        ((APIKeyRotationManager.init strategy keys threshold).applyEvents
            events).record_request k success error_type now =
          (APIKeyRotationManager.init strategy keys threshold).applyEvents events ∧
        ((APIKeyRotationManager.init strategy keys threshold).applyEvents
            events).should_skip_key k = false) := by
  have hinit : ∀ k st,
      (APIKeyRotationManager.init strategy keys threshold).key_stats k = some st →
      st.errors ≤ st.requests := by
    intro k st hst
    unfold APIKeyRotationManager.init at hst
    dsimp only at hst
    by_cases hk : k ∈ keys
    · rw [if_pos hk] at hst
      cases hst
      exact Nat.le_refl 0
    · rw [if_neg hk] at hst
      cases hst
  constructor
  · intro k st hst
    have hle := applyEvents_errors_le events
      (APIKeyRotationManager.init strategy keys threshold) hinit k st hst
    have hrate : 0 < st.requests → (st.errors : ℚ) / (st.requests : ℚ) * 100 ≤ 100 := by
      intro hpos
      have hreq : (0 : ℚ) < (st.requests : ℚ) := by exact_mod_cast hpos
      have hdiv : (st.errors : ℚ) / (st.requests : ℚ) ≤ 1 :=
        (div_le_one hreq).mpr (by exact_mod_cast hle)
      calc (st.errors : ℚ) / (st.requests : ℚ) * 100 ≤ 1 * 100 :=
            mul_le_mul_of_nonneg_right hdiv (by norm_num)
        _ = 100 := by norm_num
    refine ⟨hle, hrate, ?_⟩
    unfold APIKeyRotationManager.statistics_error_rate
    by_cases hpos : 0 < st.requests
    · rw [if_pos hpos]
      exact hrate hpos
    · rw [if_neg hpos]
      norm_num
  · intro k hk success error_type now
    have hnone : ((APIKeyRotationManager.init strategy keys threshold).applyEvents
        events).key_stats k = none := by
      apply applyEvents_none
      unfold APIKeyRotationManager.init
      dsimp only
      rw [if_neg hk]
    constructor
    · unfold APIKeyRotationManager.record_request
      rw [hnone]
    · unfold APIKeyRotationManager.should_skip_key
      rw [hnone]

/-- Witness for C10: one failure then one success recorded on key `k`
give `errors = 1 ≤ 2 = requests` with error rate 50% ≤ 100, and the
unmanaged key `x` is a no-op for `record_request` and not skipped. -/
theorem C10_rotation_stats_invariant_witness :
    ((1 : ℕ) ≤ 2 ∧ ((0 : ℕ) < 2 → ((1 : ℕ) : ℚ) / ((2 : ℕ) : ℚ) * 100 ≤ 100) ∧
      APIKeyRotationManager.statistics_error_rate ⟨2, 1, some "RATE_LIMIT", some 0⟩
        ≤ 100) ∧
    (((APIKeyRotationManager.init "round_robin" ["k"] 95).applyEvents
        [("k", false, some "RATE_LIMIT", 0), ("k", true, none, 1)]).record_request
        "x" false none 5 =
      (APIKeyRotationManager.init "round_robin" ["k"] 95).applyEvents
        [("k", false, some "RATE_LIMIT", 0), ("k", true, none, 1)] ∧
      ((APIKeyRotationManager.init "round_robin" ["k"] 95).applyEvents
        [("k", false, some "RATE_LIMIT", 0), ("k", true, none, 1)]).should_skip_key
        "x" = false) := by
  have h := C10_rotation_stats_invariant "round_robin" ["k"] 95
    [("k", false, some "RATE_LIMIT", 0), ("k", true, none, 1)]
  constructor
  · exact h.1 "k" ⟨2, 1, some "RATE_LIMIT", some 0⟩ rfl
  · exact h.2 "x" (by decide) false none 5

/-! ### C4 / C5 / C6 / C7 — enrichment post-processor -/

theorem update_item_self (store : Store) (key : String × String) (w : ℚ)
    (snt updated_at : String) :
    update_item store key w snt updated_at key =
      some { (store key).getD emptyItem with
        weight := some w, sentiment := some snt, updated_at := some updated_at } := by
  unfold update_item
  rw [if_pos rfl]

theorem update_item_other (store : Store) (key k : String × String) (w : ℚ)
    (snt updated_at : String) (hne : k ≠ key) :
    update_item store key w snt updated_at k = store k := by
  unfold update_item
  rw [if_neg hne]

theorem update_item_keeps_attrs (store : Store) (key k : String × String) (w : ℚ)
    (snt updated_at : String) (i : Item) (hi : store k = some i) :
    ∃ i2, update_item store key w snt updated_at k = some i2 ∧ i2.attrs = i.attrs := by
  by_cases hk : k = key
  · subst hk
    rw [update_item_self, hi]
    exact ⟨_, rfl, rfl⟩
  · rw [update_item_other store key k w snt updated_at hk]
    exact ⟨i, hi, rfl⟩

theorem update_item_twice_weight_sentiment (store : Store) (key : String × String)
    (w : ℚ) (snt t1 t2 : String) (k : String × String) :
    ((update_item (update_item store key w snt t1) key w snt t2 k).map
      (fun i => (i.weight, i.sentiment))) =
    ((update_item store key w snt t1 k).map (fun i => (i.weight, i.sentiment))) := by
  by_cases hk : k = key
  · subst hk
    rw [update_item_self, update_item_self]
    rfl
  · rw [update_item_other _ key k w snt t2 hk, update_item_other _ key k w snt t1 hk]

/-- Whatever the stream record is, `process_stream_record` either leaves
every store untouched, or — when the record carries a complete new-image —
performs exactly the `update_item` at the record's key with the weight and
sentiment recomputed from the record alone, for every store and clock. -/
theorem process_stream_record_dichotomy (parse : String → Option Json)
    (polarity : String → ℚ) (use_aws_comprehend : Bool) (comprehend : String → String)
    (record : StreamRecord) :
    (∀ (now : String) (store : Store),
      (process_stream_record parse polarity use_aws_comprehend comprehend record now
        store).2 = store) ∨
    (∃ d img, record.dynamodb = some d ∧ d.NewImage = some img ∧
      ∀ (now : String) (store : Store),
        (process_stream_record parse polarity use_aws_comprehend comprehend record now
          store).2 =
          update_item store (img.celebrity_id.getD "", img.source_type_timestamp.getD "")
            (calculate_weight parse (img.raw_text.getD "") (img.source.getD ""))
            (calculate_sentiment use_aws_comprehend comprehend polarity parse
              (img.raw_text.getD "")) now) := by
  cases hev : record.eventName with
  | none =>
    left
    intro now store
    unfold process_stream_record
    rw [hev]
  | some ev =>
    by_cases h1 : ev = "INSERT" ∨ ev = "MODIFY"
    · cases hd : record.dynamodb with
      | none =>
        left
        intro now store
        unfold process_stream_record
        rw [hev]
        dsimp only
        rw [if_neg (not_not_intro h1), hd]
      | some d =>
        cases hn : d.NewImage with
        | none =>
          left
          intro now store
          unfold process_stream_record
          rw [hev]
          dsimp only
          rw [if_neg (not_not_intro h1), hd]
          dsimp only
          rw [hn]
        | some img =>
          by_cases h2 : (truthyField img.celebrity_id &&
              truthyField img.source_type_timestamp &&
              truthyField img.raw_text && truthyField img.source) = true
          · right
            refine ⟨d, img, rfl, hn, ?_⟩
            intro now store
            unfold process_stream_record
            rw [hev]
            dsimp only
            rw [if_neg (not_not_intro h1), hd]
            dsimp only
            rw [hn]
            dsimp only
            rw [if_pos h2]
          · left
            intro now store
            unfold process_stream_record
            rw [hev]
            dsimp only
            rw [if_neg (not_not_intro h1), hd]
            dsimp only
            rw [hn]
            dsimp only
            rw [if_neg h2]
    · left
      intro now store
      unfold process_stream_record
      rw [hev]
      dsimp only
      rw [if_pos h1]

/-- C4: processing the same change-feed notification twice with the
local-heuristic sentiment path leaves the same stored weight and
sentiment at every key as processing it once — the second run recomputes
the identical values from the notification and issues the same update
(only the updated-at timestamp can differ). -/
theorem C4_enrichment_idempotent (parse : String → Option Json)
    (polarity : String → ℚ) (comprehend : String → String) (record : StreamRecord)
    (now1 now2 : String) (store : Store) (k : String × String) :
    (((process_stream_record parse polarity false comprehend record now2
        (process_stream_record parse polarity false comprehend record now1
          store).2).2 k).map (fun i => (i.weight, i.sentiment))) =
    (((process_stream_record parse polarity false comprehend record now1
        store).2 k).map (fun i => (i.weight, i.sentiment))) := by
  rcases process_stream_record_dichotomy parse polarity false comprehend record with
    h | ⟨d, img, hd, hn, hupd⟩
  · rw [h now2 _, h now1 store]
  · rw [hupd now2 _, hupd now1 store]
    exact update_item_twice_weight_sentiment store _ _ _ now1 now2 k

/-- C7: the update issued by `process_stream_record` touches only the
exact `(celebrity_id, source_type#timestamp)` key extracted from the
notification's new-image, and at that key it can change only the
`weight`, `sentiment` and `updated_at` attributes: every pre-existing
item keeps all its other attributes (`raw_payload` included) unchanged. -/
theorem C7_update_touches_only_derived_fields (parse : String → Option Json)
    (polarity : String → ℚ) (use_aws_comprehend : Bool) (comprehend : String → String)
    (record : StreamRecord) (now : String) (store : Store) :
    (∀ (k : String × String) (i : Item), store k = some i →
      ∃ i2, (process_stream_record parse polarity use_aws_comprehend comprehend record
        now store).2 k = some i2 ∧ i2.attrs = i.attrs) ∧
    (∀ k : String × String,
      (process_stream_record parse polarity use_aws_comprehend comprehend record now
        store).2 k ≠ store k →
      ∃ d img, record.dynamodb = some d ∧ d.NewImage = some img ∧
        k = (img.celebrity_id.getD "", img.source_type_timestamp.getD "")) := by
  rcases process_stream_record_dichotomy parse polarity use_aws_comprehend comprehend
    record with h | ⟨d, img, hd, hn, hupd⟩
  · constructor
    · intro k i hi
      rw [h now store]
      exact ⟨i, hi, rfl⟩
    · intro k hk
      rw [h now store] at hk
      exact absurd rfl hk
  · constructor
    · intro k i hi
      rw [hupd now store]
      exact update_item_keeps_attrs store _ k _ _ now i hi
    · intro k hk
      rw [hupd now store] at hk
      refine ⟨d, img, hd, hn, ?_⟩
      by_contra hne
      exact hk (update_item_other store _ k _ _ now hne)

/-- Witness for C7: at a concrete record and a store holding one item at
the record's key, the processed store keeps that item's `attrs`
unchanged, and the record's own key is the only one whose content
changed. -/
theorem C7_update_touches_only_derived_fields_witness :
    (∃ i2, (process_stream_record (fun _ => some (.obj [])) (fun _ => 0) false
        (fun _ => "NEUTRAL")
        ⟨some "INSERT", some ⟨some ⟨some "c1", some "s1", some "payload",
          some "mysource"⟩⟩⟩
        "2024-01-01T00:00:00Z"
        (fun k => if k = ("c1", "s1") then
          some ⟨none, none, none, [("raw_text", "payload"), ("source", "mysource")]⟩
          else none)).2 ("c1", "s1") = some i2 ∧
      i2.attrs = [("raw_text", "payload"), ("source", "mysource")]) ∧
    (∃ d img,
      (StreamRecord.mk (some "INSERT")
        (some ⟨some ⟨some "c1", some "s1", some "payload",
          some "mysource"⟩⟩)).dynamodb = some d ∧
      d.NewImage = some img ∧
      (("c1", "s1") : String × String) =
        (img.celebrity_id.getD "", img.source_type_timestamp.getD "")) := by
  have h := C7_update_touches_only_derived_fields (fun _ => some (.obj []))
    (fun _ => 0) false (fun _ => "NEUTRAL")
    ⟨some "INSERT", some ⟨some ⟨some "c1", some "s1", some "payload",
      some "mysource"⟩⟩⟩
    "2024-01-01T00:00:00Z"
    (fun k => if k = ("c1", "s1") then
      some ⟨none, none, none, [("raw_text", "payload"), ("source", "mysource")]⟩
      else none)
  constructor
  · exact h.1 ("c1", "s1")
      ⟨none, none, none, [("raw_text", "payload"), ("source", "mysource")]⟩
      (by rw [if_pos rfl])
  · apply h.2 ("c1", "s1")
    intro heq
    have h1 : ((process_stream_record (fun _ => some (.obj [])) (fun _ => 0) false
        (fun _ => "NEUTRAL")
        ⟨some "INSERT", some ⟨some ⟨some "c1", some "s1", some "payload",
          some "mysource"⟩⟩⟩
        "2024-01-01T00:00:00Z"
        (fun k => if k = ("c1", "s1") then
          some ⟨none, none, none, [("raw_text", "payload"), ("source", "mysource")]⟩
          else none)).2 ("c1", "s1")).map Item.updated_at =
        some (some "2024-01-01T00:00:00Z") := rfl
    rw [heq] at h1
    have h2 : (((fun k => if k = ("c1", "s1") then
        some (⟨none, none, none,
          [("raw_text", "payload"), ("source", "mysource")]⟩ : Item)
        else none) : Store) ("c1", "s1")).map Item.updated_at = some none := rfl
    rw [h2] at h1
    simp at h1

theorem calculate_weight_eq (parse : String → Option Json) (raw_text source : String) :
    calculate_weight parse raw_text source =
      round2 ((match parse raw_text with
        | some (.obj fields) => min ((fieldCount fields : ℚ) / 10) 1
        | _ => 3 / 10) * (1 / 2) + reliabilityScore source * (1 / 2)) := rfl

theorem roundHalfEven_eq_floor_or_succ (q : ℚ) :
    roundHalfEven q = ⌊q⌋ ∨ (roundHalfEven q = ⌊q⌋ + 1 ∧ 1 / 2 ≤ q - ⌊q⌋) := by
  unfold roundHalfEven
  by_cases h1 : q - ⌊q⌋ < 1 / 2
  · rw [if_pos h1]
    exact Or.inl rfl
  · rw [if_neg h1]
    by_cases h2 : (1 : ℚ) / 2 < q - ⌊q⌋
    · rw [if_pos h2]
      exact Or.inr ⟨rfl, by linarith⟩
    · rw [if_neg h2]
      by_cases h3 : ⌊q⌋ % 2 = 0
      · rw [if_pos h3]
        exact Or.inl rfl
      · rw [if_neg h3]
        exact Or.inr ⟨rfl, by linarith⟩

theorem round2_bounds (q : ℚ) (h0 : 0 ≤ q) (h1 : q ≤ 1) :
    0 ≤ round2 q ∧ round2 q ≤ 1 := by
  have hx1 : q * 100 ≤ 100 := by nlinarith
  have hfl : (⌊q * 100⌋ : ℚ) ≤ q * 100 := Int.floor_le _
  have hfl0 : (0 : ℤ) ≤ ⌊q * 100⌋ := Int.le_floor.mpr (by push_cast; positivity)
  have hup : roundHalfEven (q * 100) ≤ 100 := by
    rcases roundHalfEven_eq_floor_or_succ (q * 100) with hc | ⟨hc, hhalf⟩
    · rw [hc]
      have hle : (⌊q * 100⌋ : ℚ) ≤ 100 := le_trans hfl hx1
      exact_mod_cast hle
    · rw [hc]
      have hlt : (⌊q * 100⌋ : ℚ) < 100 := by linarith
      have hlt2 : ⌊q * 100⌋ < 100 := by exact_mod_cast hlt
      omega
  have hlow : (0 : ℤ) ≤ roundHalfEven (q * 100) := by
    rcases roundHalfEven_eq_floor_or_succ (q * 100) with hc | ⟨hc, _⟩ <;> rw [hc] <;>
      omega
  unfold round2
  constructor
  · exact div_nonneg (by exact_mod_cast hlow) (by norm_num)
  · rw [div_le_one (by norm_num)]
    exact_mod_cast hup

theorem reliabilityScore_bounds (source : String) :
    0 ≤ reliabilityScore source ∧ reliabilityScore source ≤ 1 := by
  unfold reliabilityScore
  cases hf : source_reliability.find? (fun p => strHasSub (strToLower source) p.1) with
  | none => norm_num
  | some p =>
    have hmem : p ∈ source_reliability := List.mem_of_find?_eq_some hf
    simp only [Option.map_some', Option.getD_some]
    simp only [source_reliability] at hmem
    fin_cases hmem <;> norm_num

/-- C5: the computed weight always lies in `[0, 1]`, for every payload
(malformed ones included) and every source; and when the payload parses
as a JSON object, the weight is exactly
`round2 (0.5 * min (non_empty_field_count / 10) 1 + 0.5 * reliability)`
with the reliability looked up in the fixed domain table (default 0.5). -/
theorem C5_weight_bounds_and_formula :
    (∀ (parse : String → Option Json) (raw_text source : String),
      0 ≤ calculate_weight parse raw_text source ∧
        calculate_weight parse raw_text source ≤ 1) ∧
    (∀ (parse : String → Option Json) (raw_text source : String)
        (fields : List (String × Json)),
      parse raw_text = some (.obj fields) →
      calculate_weight parse raw_text source =
        round2 ((1 / 2) * min ((fieldCount fields : ℚ) / 10) 1 +
          (1 / 2) * reliabilityScore source)) := by
  constructor
  · intro parse raw_text source
    rw [calculate_weight_eq]
    obtain ⟨hr0, hr1⟩ := reliabilityScore_bounds source
    cases hp : parse raw_text with
    | none =>
      dsimp only
      exact round2_bounds _ (by linarith) (by linarith)
    | some j =>
      cases j with
      | obj fields =>
        dsimp only
        have hc0 : 0 ≤ min ((fieldCount fields : ℚ) / 10) 1 :=
          le_min (by positivity) (by norm_num)
        have hc1 : min ((fieldCount fields : ℚ) / 10) 1 ≤ 1 := min_le_right _ _
        exact round2_bounds _ (by nlinarith) (by nlinarith)
      | null => exact round2_bounds _ (by linarith) (by linarith)
      | bool b => exact round2_bounds _ (by linarith) (by linarith)
      | num x => exact round2_bounds _ (by linarith) (by linarith)
      | str s => exact round2_bounds _ (by linarith) (by linarith)
      | arr xs => exact round2_bounds _ (by linarith) (by linarith)
  · intro parse raw_text source fields hp
    rw [calculate_weight_eq, hp]
    exact congrArg round2 (by ring)

/-- Witness for C5, matching the spec's worked example: payload with 2
non-empty fields from a wikipedia source (reliability 0.9) gives weight
`round2 (0.5 * 0.2 + 0.5 * 0.9) = 0.55`, inside `[0, 1]`. -/
theorem C5_weight_bounds_and_formula_witness :
    calculate_weight
      (fun _ => some (.obj [("title", .str "X"),
        ("bio", .str "great performance, amazing")]))
      "payload" "https://en.wikipedia.org/wiki/X" = 11 / 20 ∧
    0 ≤ calculate_weight
      (fun _ => some (.obj [("title", .str "X"),
        ("bio", .str "great performance, amazing")]))
      "payload" "https://en.wikipedia.org/wiki/X" ∧
    calculate_weight
      (fun _ => some (.obj [("title", .str "X"),
        ("bio", .str "great performance, amazing")]))
      "payload" "https://en.wikipedia.org/wiki/X" ≤ 1 := by
  obtain ⟨hb0, hb1⟩ := C5_weight_bounds_and_formula.1
    (fun _ => some (.obj [("title", .str "X"),
      ("bio", .str "great performance, amazing")]))
    "payload" "https://en.wikipedia.org/wiki/X"
  have hfor := C5_weight_bounds_and_formula.2
    (fun _ => some (.obj [("title", .str "X"),
      ("bio", .str "great performance, amazing")]))
    "payload" "https://en.wikipedia.org/wiki/X"
    [("title", .str "X"), ("bio", .str "great performance, amazing")] rfl
  refine ⟨?_, hb0, hb1⟩
  rw [hfor]
  rw [show reliabilityScore "https://en.wikipedia.org/wiki/X" = 90 / 100 from rfl]
  rw [show fieldCount [("title", Json.str "X"),
    ("bio", Json.str "great performance, amazing")] = 2 from rfl]
  rw [min_eq_left (by norm_num)]
  have harg : (1 / 2 : ℚ) * (((2 : ℕ) : ℚ) / 10) + (1 / 2) * (90 / 100) = 11 / 20 := by
    push_cast
    norm_num
  rw [harg, round2]
  norm_num [roundHalfEven]

/-- C6 counterexample: with every required field present but a raw
payload that is malformed JSON (the parse fails), `process_stream_record`
still issues the store update — starting from the empty store, the
record's key is populated afterwards — where the claim says the record is
skipped with no store update. -/
theorem C6_malformed_payload_still_updates :
    (process_stream_record (fun _ => none) (fun _ => 0) false (fun _ => "NEUTRAL")
      ⟨some "INSERT", some ⟨some ⟨some "c1", some "s1", some "notjson",
        some "mysource"⟩⟩⟩
      "2024-01-01T00:00:00Z" (fun _ => none)).2 ("c1", "s1") ≠ none := by
  intro heq
  have hs : ((process_stream_record (fun _ => none) (fun _ => 0) false
      (fun _ => "NEUTRAL")
      ⟨some "INSERT", some ⟨some ⟨some "c1", some "s1", some "notjson",
        some "mysource"⟩⟩⟩
      "2024-01-01T00:00:00Z" (fun _ => none)).2 ("c1", "s1")).isSome = true := rfl
  rw [heq] at hs
  exact absurd hs (by decide)

/-- C6 (amended): `process_stream_record` is total (the embedding returns
a boolean and a store in every case — the Python outer handler catches
any exception and returns `False`); it skips with no store update when a
required field (subject id, sort key, raw payload, or source) is absent
or empty in the new-image; but when the raw payload is malformed JSON it
does not skip: it falls back to completeness score 0.3 and still issues
the conditional update built from that default. -/
theorem C6_skip_on_missing_update_on_malformed (parse : String → Option Json)
    (polarity : String → ℚ) (use_aws_comprehend : Bool) (comprehend : String → String)
    (record : StreamRecord) (ev : String) (d : StreamRecordData) (img : NewImage)
    (now : String) (store : Store) :
    (record.eventName = some ev → (ev = "INSERT" ∨ ev = "MODIFY") →
      record.dynamodb = some d → d.NewImage = some img →
      (truthyField img.celebrity_id && truthyField img.source_type_timestamp &&
        truthyField img.raw_text && truthyField img.source) = false →
      process_stream_record parse polarity use_aws_comprehend comprehend record now
        store = (true, store)) ∧
    (record.eventName = some ev → (ev = "INSERT" ∨ ev = "MODIFY") →
      record.dynamodb = some d → d.NewImage = some img →
      (truthyField img.celebrity_id && truthyField img.source_type_timestamp &&
        truthyField img.raw_text && truthyField img.source) = true →
      parse (img.raw_text.getD "") = none →
      process_stream_record parse polarity use_aws_comprehend comprehend record now
        store =
        (true, update_item store
          (img.celebrity_id.getD "", img.source_type_timestamp.getD "")
          (round2 ((3 / 10) * (1 / 2) + reliabilityScore (img.source.getD "") * (1 / 2)))
          (calculate_sentiment use_aws_comprehend comprehend polarity parse
            (img.raw_text.getD "")) now)) := by
  constructor
  · intro hev h1 hd hn h2
    unfold process_stream_record
    rw [hev]
    dsimp only
    rw [if_neg (not_not_intro h1), hd]
    dsimp only
    rw [hn]
    dsimp only
    rw [if_neg (by rw [h2]; exact Bool.false_ne_true)]
  · intro hev h1 hd hn h2 hparse
    unfold process_stream_record
    rw [hev]
    dsimp only
    rw [if_neg (not_not_intro h1), hd]
    dsimp only
    rw [hn]
    dsimp only
    rw [if_pos h2]
    have hw : calculate_weight parse (img.raw_text.getD "") (img.source.getD "") =
        round2 ((3 / 10) * (1 / 2) +
          reliabilityScore (img.source.getD "") * (1 / 2)) := by
      rw [calculate_weight_eq, hparse]
    rw [hw]

/-- Witness for the amended C6: a new-image missing `source` is skipped
with the store untouched, while a complete new-image whose payload fails
to parse is still written through `update_item` with the 0.3 completeness
fallback. -/
theorem C6_skip_on_missing_update_on_malformed_witness :
    process_stream_record (fun _ => none) (fun _ => 0) false (fun _ => "NEUTRAL")
      ⟨some "INSERT", some ⟨some ⟨some "c1", some "s1", some "notjson", none⟩⟩⟩
      "t1" (fun _ => none) = (true, fun _ => none) ∧
    process_stream_record (fun _ => none) (fun _ => 0) false (fun _ => "NEUTRAL")
      ⟨some "INSERT", some ⟨some ⟨some "c1", some "s1", some "notjson",
        some "mysource"⟩⟩⟩
      "t1" (fun _ => none) =
      (true, update_item (fun _ => none) ("c1", "s1")
        (round2 ((3 / 10) * (1 / 2) + reliabilityScore "mysource" * (1 / 2)))
        (calculate_sentiment false (fun _ => "NEUTRAL") (fun _ => 0) (fun _ => none)
          "notjson") "t1") := by
  constructor
  · exact (C6_skip_on_missing_update_on_malformed (fun _ => none) (fun _ => 0) false
      (fun _ => "NEUTRAL")
      ⟨some "INSERT", some ⟨some ⟨some "c1", some "s1", some "notjson", none⟩⟩⟩
      "INSERT" ⟨some ⟨some "c1", some "s1", some "notjson", none⟩⟩
      ⟨some "c1", some "s1", some "notjson", none⟩ "t1" (fun _ => none)).1
      rfl (Or.inl rfl) rfl rfl rfl
  · exact (C6_skip_on_missing_update_on_malformed (fun _ => none) (fun _ => 0) false
      (fun _ => "NEUTRAL")
      ⟨some "INSERT", some ⟨some ⟨some "c1", some "s1", some "notjson",
        some "mysource"⟩⟩⟩
      "INSERT" ⟨some ⟨some "c1", some "s1", some "notjson", some "mysource"⟩⟩
      ⟨some "c1", some "s1", some "notjson", some "mysource"⟩ "t1"
      (fun _ => none)).2 rfl (Or.inl rfl) rfl rfl rfl rfl


end FameMeter
